import Mathlib

/-!
Shallow embedding of the zapx stackdriver logging decorator
(stackdriver.go, zapx.go, utils.go, and the slack notification /
encoder file), together with proofs about its field classifier,
scope derivation, write path, retry policy and notification renderer.

Machine integers of the source (Go `int`, `int64`, `time.Duration`)
are modelled as `Int`/`Nat`; strings are Lean `String`s with the
char-list operations used where kernel evaluation is needed (Go's
byte-wise string order coincides with code-point order under UTF-8).
External collaborators (the inner zap core, yaml serialization, the
backoff schedule) are passed as explicit function parameters.
-/

namespace Zapx

/-! ## Field model (zapcore.Field as used by this repository) -/

/-- The subset of zapcore field types this code path distinguishes
(`f.Type` in Go): strings, bools, int64s, errors, objects, arrays and
reflected values. -/
inductive FieldKind
  | stringK
  | boolK
  | int64K
  | errorK
  | objectK
  | arrayK
  | reflectedK
deriving DecidableEq, Repr

/-- contextInfo from stackdriver.go: the structured value carried by a
ContextInfo field. -/
structure contextInfo where
  isSampled : Bool
  traceID : String
  spanID : String
  grpcMethod : String
  requestID : String
deriving DecidableEq, Repr

/-- serviceContext from stackdriver.go. -/
structure serviceContext where
  service : String
  version : String
deriving DecidableEq, Repr

/-- reportLocation from zapx.go. -/
structure reportLocation where
  filePath : String
  lineNumber : Int
  functionName : String
deriving DecidableEq, Repr

/-- sourceLocation from zapx.go. -/
structure sourceLocation where
  file : String
  line : Int
  function : String
deriving DecidableEq, Repr

/-- errorReportingContext from zapx.go. -/
structure errorReportingContext where
  rloc : reportLocation
  user : String
deriving DecidableEq, Repr

/-- The dynamic `Interface` payload of a field: the shapes this code
inspects or constructs.  An `objectV`/`arrV` carries the string its
yaml serialization produces externally; `labelsV` carries the
stripped label pairs of the composite labels object. -/
inductive Iface
  | ctxInfoV (c : contextInfo)
  | errorV (e : String)
  | objectV (serialized : String)
  | arrV (serialized : String)
  | labelsV (ls : List (String × String))
  | srcLocV (l : sourceLocation)
  | svcCtxV (s : serviceContext)
  | errCtxV (c : errorReportingContext)
  | noneV
deriving DecidableEq, Repr

/-- zapcore.Field: key, type tag, and the three value slots this code
reads (`String`, `Integer`, `Interface`). -/
structure Field where
  key : String
  kind : FieldKind
  str : String
  integer : Int
  iface : Iface
deriving DecidableEq, Repr

/-- zap.String(k, v). -/
def strField (k v : String) : Field :=
  ⟨k, .stringK, v, 0, .noneV⟩

/-- zap.Bool(k, b): stores the bool in the Integer slot as 1/0. -/
def boolField (k : String) (b : Bool) : Field :=
  ⟨k, .boolK, "", if b then 1 else 0, .noneV⟩

/-- zap.Object(k, marshaler). -/
def objField (k : String) (i : Iface) : Field :=
  ⟨k, .objectK, "", 0, i⟩

/-- zap.Error-style field: an error value in the Interface slot. -/
def errorField (k e : String) : Field :=
  ⟨k, .errorK, "", 0, .errorV e⟩

/-! ## Reserved keys (stackdriver.go consts) -/

def logKeySlackNotification : String := "zapx.slack"

def logKeyContextInfo : String := "zapx.context"

def logKeyLabelPrefix : String := "zapx.label#"

/-- strings.HasPrefix(key, logKeyLabelPrefix), on char lists (the
marker is ASCII, so byte- and char-level prefix tests agree). -/
def isLabelKey (k : String) : Bool :=
  List.isPrefixOf logKeyLabelPrefix.data k.data

/-- strings.TrimPrefix(key, logKeyLabelPrefix) in the branch where the
prefix is known to be present. -/
def stripLabelKey (k : String) : String :=
  String.mk (k.data.drop logKeyLabelPrefix.data.length)

/-- zapx.Label(key, val) = zap.String(logKeyLabelPrefix+key, val). -/
def Label (k v : String) : Field :=
  strField (logKeyLabelPrefix ++ k) v

/-- A well-formed ContextInfo field as built by zapx.Context:
zap.Reflect(logKeyContextInfo, info). -/
def ctxField (c : contextInfo) : Field :=
  ⟨logKeyContextInfo, .reflectedK, "", 0, .ctxInfoV c⟩

/-! ## slackBehavior and the decorator state -/

inductive slackBehavior
  | defaultSlack
  | enableSlack
  | disableSlack
deriving DecidableEq, Repr

/-- The stackdriver decorator's own state (stackdriver.go struct);
the inner core and the WaitGroup are modelled separately.  The
`errorPraser` (sic, source spelling) maps an error value to the
serialized object the configured renderer produces, or `none` when
the renderer declines; the whole option is `none` when no renderer is
configured. -/
structure stackdriver where
  projectID : String
  svcCtx : serviceContext
  slackURL : String
  errorPraser : Option (String → Option String)
  enableSlack : Bool
  user : String
  fields : List Field

/-! ## parseFields (stackdriver.go lines 200-266) -/

/-- Running state of the parseFields loop: the named results
`(fs, user, sendSlack, slackURL)` plus the label accumulator. -/
structure parseState where
  fs : List Field
  user : String
  sendSlack : slackBehavior
  slackURL : String
  labels : List (String × String)
deriving Repr

/-- One iteration of the parseFields loop body over field `f`. -/
def parseStep (s : stackdriver) (msg : Option String) (st : parseState) (f : Field) : parseState :=
  if isLabelKey f.key then
    { st with labels := st.labels ++ [(stripLabelKey f.key, f.str)] }
  else if f.key = "user" then
    if f.kind = .stringK then { st with user := f.str } else st
  else if f.key = "stack_trace" then
    match msg with
    | some m =>
        if f.kind = .stringK then
          { st with fs := st.fs ++ [{ f with str := m ++ "\n" ++ f.str }] }
        else
          { st with fs := st.fs ++ [f] }
    | none => { st with fs := st.fs ++ [f] }
  else if f.key = logKeyContextInfo then
    match f.iface with
    | .ctxInfoV info =>
        let fs1 :=
          if info.isSampled then
            st.fs ++ [boolField "logging.googleapis.com/trace_sampled" true,
                      strField "logging.googleapis.com/trace" info.traceID,
                      strField "logging.googleapis.com/spanId" info.spanID]
          else st.fs
        let fs2 := if info.grpcMethod ≠ "" then fs1 ++ [strField "grpc_method" info.grpcMethod] else fs1
        let fs3 := if info.requestID ≠ "" then fs2 ++ [strField "request_id" info.requestID] else fs2
        { st with fs := fs3 }
    | _ => st
  else if f.key = logKeySlackNotification then
    if f.kind = .boolK then
      if f.integer = 1 then
        { st with sendSlack := .enableSlack, slackURL := s.slackURL }
      else
        { st with sendSlack := .disableSlack }
    else if f.kind = .stringK then
      { st with sendSlack := .enableSlack, slackURL := f.str }
    else st
  else
    match s.errorPraser, f.kind, f.iface with
    | some p, .errorK, .errorV e =>
        match p e with
        | some obj => { st with fs := st.fs ++ [objField f.key (.objectV obj)] }
        | none => { st with fs := st.fs ++ [f] }
    | _, _, _ => { st with fs := st.fs ++ [f] }

/-- Result quadruple of parseFields. -/
structure parseResult where
  fs : List Field
  user : String
  sendSlack : slackBehavior
  slackURL : String
deriving Repr

/-- stackdriver.parseFields: iterate the loop from zero-valued named
returns, then append the composite labels object when any label was
collected. -/
def stackdriver.parseFields (s : stackdriver) (fields : List Field) (msg : Option String) : parseResult :=
  let st := fields.foldl (parseStep s msg) ⟨[], "", .defaultSlack, "", []⟩
  { fs := if st.labels = [] then st.fs
          else st.fs ++ [objField "logging.googleapis.com/labels" (.labelsV st.labels)],
    user := st.user, sendSlack := st.sendSlack, slackURL := st.slackURL }

/-! ## With (stackdriver.go lines 134-165) -/

/-- stackdriver.With.  The Go child literal lists projectID, parent,
svcCtx, slackURL, errorPraser, user and fields but has no enableSlack
entry, so the child's enableSlack is the zero value `false` unless the
per-call classification set it. -/
def stackdriver.With (s : stackdriver) (fields : List Field) : stackdriver :=
  let r := s.parseFields fields none
  let user := if r.user = "" then s.user else r.user
  let newFileds := s.fields ++ r.fs
  let news : stackdriver :=
    { projectID := s.projectID, svcCtx := s.svcCtx, slackURL := s.slackURL,
      errorPraser := s.errorPraser, enableSlack := false, user := user, fields := newFileds }
  let news := if r.slackURL ≠ "" then { news with slackURL := r.slackURL } else news
  if r.sendSlack = .disableSlack then { news with enableSlack := false }
  else if r.sendSlack = .enableSlack then { news with enableSlack := true }
  else news

/-! ## Entry, call-site views and Write (stackdriver.go 174-193, utils.go) -/

inductive Level
  | debug
  | info
  | warn
  | error
  | dpanic
  | panic
  | fatal
deriving DecidableEq, Repr

/-- zapcore.EntryCaller as consumed here: `trimmedPath` stands for
`TrimmedPath()` of `file`, `callerStr` for `Caller.String()`. -/
structure EntryCaller where
  defined : Bool
  trimmedPath : String
  callerStr : String
  line : Int
  function : String
deriving DecidableEq, Repr

/-- zapcore.Entry; `time` is the already RFC3339-formatted timestamp
(external formatting). -/
structure Entry where
  level : Level
  time : String
  loggerName : String
  message : String
  caller : EntryCaller
deriving DecidableEq, Repr

/-- utils.go reportLocationFromEntry. -/
def reportLocationFromEntry (ent : Entry) : reportLocation :=
  if ent.caller.defined then
    ⟨ent.caller.trimmedPath, ent.caller.line, ent.caller.function⟩
  else ⟨"", 0, ""⟩

/-- utils.go sourceLocationFromEntry. -/
def sourceLocationFromEntry (ent : Entry) : sourceLocation :=
  if ent.caller.defined then
    ⟨ent.caller.trimmedPath, ent.caller.line, ent.caller.function⟩
  else ⟨"", 0, ""⟩

/-- Lines 175-177 of Write: prefix the logger name onto the message
unless it is empty or the sentinel "unknown". -/
def prefixEntry (ent : Entry) : Entry :=
  if ent.loggerName ≠ "" ∧ ent.loggerName ≠ "unknown" then
    { ent with message := ent.loggerName ++ ": " ++ ent.message }
  else ent

/-- Observable outcome of one Write call: the (possibly re-messaged)
entry, the final field set handed to the inner core, the destination
the notification goroutine was started with (if any), and the inner
core's own write result. -/
structure WriteResult (ρ : Type) where
  entry : Entry
  fields : List Field
  notified : Option String
  result : ρ
deriving Repr

/-- stackdriver.Write.  `parentWrite` is the inner core's Write. -/
def stackdriver.Write {ρ : Type} (s : stackdriver) (parentWrite : Entry → List Field → ρ)
    (ent : Entry) (fields : List Field) : WriteResult ρ :=
  let ent := prefixEntry ent
  let rloc := reportLocationFromEntry ent
  let sloc := sourceLocationFromEntry ent
  let r := s.parseFields fields (some ent.message)
  let fs := r.fs ++ s.fields
  let user := if r.user = "" then s.user else r.user
  let fs := fs ++ [objField "logging.googleapis.com/sourceLocation" (.srcLocV sloc),
                   objField "serviceContext" (.svcCtxV s.svcCtx),
                   objField "context" (.errCtxV ⟨rloc, user⟩)]
  { entry := ent, fields := fs,
    notified :=
      if r.sendSlack = .enableSlack ∨ (r.sendSlack = .defaultSlack ∧ s.enableSlack) then
        some r.slackURL
      else none,
    result := parentWrite ent fs }

/-! ## Severity mapping (StackdriverEncoderConfig.EncodeLevel) -/

def encodeLevel : Level → String
  | .debug => "DEBUG"
  | .info => "INFO"
  | .warn => "WARNING"
  | .error => "ERROR"
  | .dpanic => "CRITICAL"
  | .panic => "ALERT"
  | .fatal => "EMERGENCY"

/-! ## Retry policy (slackRetrier) -/

/-- The failure shapes slackRetrier.Retry distinguishes: a
slack.RateLimitedError carrying its RetryAfter duration (matched
first, via errors.As), an error exposing Retryable() (and not
recognized as rate-limited), or anything else.  Durations are int64
nanoseconds. -/
inductive SlackError
  | rateLimited (retryAfter : Int)
  | retryable (b : Bool)
  | other
deriving DecidableEq, Repr

/-- slackRetrier: `bo` is the external backoff schedule
(bo.Backoff(n)), `max` the attempt cap. -/
structure slackRetrier where
  bo : Nat → Int
  max : Nat

/-- slackRetrier.Retry: returns (delay, retry?). -/
def slackRetrier.Retry (r : slackRetrier) (n : Nat) (err : SlackError) : Int × Bool :=
  if n ≥ r.max then (0, false)
  else
    match err with
    | .rateLimited d => (d, true)
    | .retryable b =>
        if b = false then (0, false)
        else (r.bo n, true)
    | .other => (r.bo n, true)

/-- `var defaultRetrier = &slackRetrier{max: 10}`; the backoff
schedule itself is external state, passed in. -/
def defaultRetrier (bo : Nat → Int) : slackRetrier :=
  ⟨bo, 10⟩

/-! ## Alert colors (levelColorMap) -/

/-- levelColorMap: note there is no entry for DPanic. -/
def levelColorMap : Level → Option String
  | .debug => some "#2196F3"
  | .info => some "#9E9E9E"
  | .warn => some "#FF9800"
  | .error => some "#D50000"
  | .fatal => some "#D50000"
  | .panic => some "#D50000"
  | .dpanic => none

/-! ## slackEncoder and the notification payload -/

/-- slack.TextBlockObject restricted to the two fields this code
sets; `mtype` is always "mrkdwn". -/
structure TextBlockObject where
  mtype : String
  text : String
deriving DecidableEq, Repr

def mrkdwn (t : String) : TextBlockObject :=
  ⟨"mrkdwn", t⟩

/-- slackEncoder state: accumulated body fields plus the pinned error
field. -/
structure slackEncoder where
  Fields : List TextBlockObject
  ErrField : Option TextBlockObject
deriving DecidableEq, Repr

/-- slackEncoder.addField: a field keyed exactly "error" goes to the
pinned slot, everything else to the body list. -/
def slackEncoder.addField (enc : slackEncoder) (key : String) (field : TextBlockObject) : slackEncoder :=
  if key = "error" then { enc with ErrField := some field }
  else { enc with Fields := enc.Fields ++ [field] }

/-- Go `%x` of a natural number (lowercase hex digits). -/
def hexOfNat (n : Nat) : String :=
  String.mk (Nat.toDigits 16 n)

/-- Go `%x` of an int64: sign then hex magnitude. -/
def hexOfInt (i : Int) : String :=
  if i < 0 then "-" ++ hexOfNat i.natAbs else hexOfNat i.natAbs

/-- Go bytewise string comparison `s <= t` on char lists (UTF-8 byte
order equals code-point order, so this is Go's `<=` on the underlying
strings). -/
def charListLe : List Char → List Char → Bool
  | [], _ => true
  | _ :: _, [] => false
  | a :: as, b :: bs =>
      if a.toNat < b.toNat then true
      else if b.toNat < a.toNat then false
      else charListLe as bs

/-- The sort key used by slackEncoder.sort: ascending by the full
rendered Text (Go: `enc.Fields[i].Text < enc.Fields[j].Text`). -/
def textLe (a b : TextBlockObject) : Prop :=
  charListLe a.text.data b.text.data = true

instance : DecidableRel textLe := fun a b =>
  inferInstanceAs (Decidable (charListLe a.text.data b.text.data = true))

/-- Insert into a text-sorted list, keeping ascending text order. -/
def insertSorted (a : TextBlockObject) : List TextBlockObject → List TextBlockObject
  | [] => [a]
  | b :: l => if charListLe a.text.data b.text.data then a :: b :: l else b :: insertSorted a l

/-- Sort by rendered text. -/
def sortByText : List TextBlockObject → List TextBlockObject
  | [] => []
  | a :: l => insertSorted a (sortByText l)

/-- slackEncoder.sort: sort.Slice ascending by Text.  Modelled with
insertion sort; ties carry byte-identical rendered content (all
blocks are "mrkdwn"), so the unstable Go sort is indistinguishable
from any correct sort here. -/
def slackEncoder.sortFields (enc : slackEncoder) : slackEncoder :=
  { enc with Fields := sortByText enc.Fields }

/-- zapcore's dispatch of one field into an ObjectEncoder
(field.AddTo(enc)) composed with the slackEncoder methods of this
repository.  `yamlM` is the external yaml.Marshal, giving the
serialized text of an object/array/reflected value.  AddObject drops
the "serviceContext" key and any value whose serialization is empty;
AddArray and AddReflected have no such checks; errors render through
AddString of their Error() text. -/
def fieldAddTo (yamlM : Iface → String) (enc : slackEncoder) (f : Field) : slackEncoder :=
  match f.kind with
  | .stringK => enc.addField f.key (mrkdwn ("*" ++ f.key ++ "*\n" ++ f.str))
  | .boolK =>
      enc.addField f.key (mrkdwn ("*" ++ f.key ++ "*\n" ++ (if f.integer = 1 then "true" else "false")))
  | .int64K =>
      enc.addField f.key
        (mrkdwn ("*" ++ f.key ++ "*\nint64=0x" ++ hexOfInt f.integer ++ " (" ++ toString f.integer ++ ")"))
  | .objectK =>
      if f.key = "serviceContext" then enc
      else
        let buf := yamlM f.iface
        if buf = "\x7b\x7d\n" ∨ buf = "\x7b\x7d" ∨ buf = "" then enc
        else enc.addField f.key (mrkdwn ("*" ++ f.key ++ "*\n```" ++ buf ++ "```"))
  | .arrayK => enc.addField f.key (mrkdwn ("*" ++ f.key ++ "*\n```" ++ yamlM f.iface ++ "```"))
  | .reflectedK => enc.addField f.key (mrkdwn ("*" ++ f.key ++ "*\n```" ++ yamlM f.iface ++ "```"))
  | .errorK =>
      match f.iface with
      | .errorV e => enc.addField f.key (mrkdwn ("*" ++ f.key ++ "*\n" ++ e))
      | _ => enc

/-- The rendered notification payload: alert color, header text,
metadata row, optional pinned error block, and the sorted body. -/
structure SlackPayload where
  color : String
  headText : String
  metaTexts : List TextBlockObject
  errField : Option TextBlockObject
  body : List TextBlockObject
deriving DecidableEq, Repr

/-- Outcome of one notification task: the WaitGroup slot is always
released (deferred Done), and `payload` is the message built and
posted, or `none` when the function returned before building one. -/
structure NotifyOutcome where
  slotReleased : Bool
  payload : Option SlackPayload
deriving DecidableEq, Repr

/-- stackdriver.sendSlackNotification up to the point the payload is
handed to the webhook transport.  Returns before building anything
when the destination is empty or the level has no alert color. -/
def stackdriver.sendSlackNotification (s : stackdriver) (yamlM : Iface → String)
    (slackurl : String) (ent : Entry) (fields : List Field) : NotifyOutcome :=
  if slackurl = "" then ⟨true, none⟩
  else
    match levelColorMap ent.level with
    | none => ⟨true, none⟩
    | some color =>
        let enc := fields.foldl (fieldAddTo yamlM) ⟨[], none⟩
        let enc := enc.sortFields
        ⟨true, some
          { color := color,
            headText := "*" ++ ent.message ++ "*\n" ++ ent.caller.callerStr,
            metaTexts := [mrkdwn ("*Service*\n" ++ s.svcCtx.service),
                          mrkdwn ("*Version*\n" ++ s.svcCtx.version),
                          mrkdwn ("*Time*\n" ++ ent.time)],
            errField := enc.ErrField,
            body := enc.Fields }⟩

/-! ## Per-field characterizations of the parseFields loop
(proof-layer definitions; the theorems below tie them to parseStep) -/

/-- What one field adds to the forward list `fs` of parseFields. -/
def fieldContrib (s : stackdriver) (msg : Option String) (f : Field) : List Field :=
  if isLabelKey f.key then []
  else if f.key = "user" then []
  else if f.key = "stack_trace" then
    match msg with
    | some m => if f.kind = .stringK then [{ f with str := m ++ "\n" ++ f.str }] else [f]
    | none => [f]
  else if f.key = logKeyContextInfo then
    match f.iface with
    | .ctxInfoV info =>
        (if info.isSampled then
           [boolField "logging.googleapis.com/trace_sampled" true,
            strField "logging.googleapis.com/trace" info.traceID,
            strField "logging.googleapis.com/spanId" info.spanID]
         else []) ++
        (if info.grpcMethod ≠ "" then [strField "grpc_method" info.grpcMethod] else []) ++
        (if info.requestID ≠ "" then [strField "request_id" info.requestID] else [])
    | _ => []
  else if f.key = logKeySlackNotification then []
  else
    match s.errorPraser, f.kind, f.iface with
    | some p, .errorK, .errorV e =>
        match p e with
        | some obj => [objField f.key (.objectV obj)]
        | none => [f]
    | _, _, _ => [f]

/-- What one field adds to the label accumulator. -/
def labelContrib (f : Field) : List (String × String) :=
  if isLabelKey f.key then [(stripLabelKey f.key, f.str)] else []

/-- How one field updates the attribution user. -/
def userStep (u : String) (f : Field) : String :=
  if isLabelKey f.key then u
  else if f.key = "user" then (if f.kind = .stringK then f.str else u)
  else u

/-- How one field updates the (sendSlack, slackURL) pair. -/
def slackStep (s : stackdriver) (p : slackBehavior × String) (f : Field) : slackBehavior × String :=
  if isLabelKey f.key then p
  else if f.key = "user" then p
  else if f.key = "stack_trace" then p
  else if f.key = logKeyContextInfo then p
  else if f.key = logKeySlackNotification then
    if f.kind = .boolK then
      if f.integer = 1 then (.enableSlack, s.slackURL) else (.disableSlack, p.2)
    else if f.kind = .stringK then (.enableSlack, f.str)
    else p
  else p

/-! ## Per-field characterizations of the slack renderer -/

/-- The rendered block one field produces, before key routing:
`none` when AddObject drops it (serviceContext key or empty
serialization) or when an error field carries no error value. -/
def renderOne (yamlM : Iface → String) (f : Field) : Option TextBlockObject :=
  match f.kind with
  | .stringK => some (mrkdwn ("*" ++ f.key ++ "*\n" ++ f.str))
  | .boolK => some (mrkdwn ("*" ++ f.key ++ "*\n" ++ (if f.integer = 1 then "true" else "false")))
  | .int64K =>
      some (mrkdwn ("*" ++ f.key ++ "*\nint64=0x" ++ hexOfInt f.integer ++ " (" ++ toString f.integer ++ ")"))
  | .objectK =>
      if f.key = "serviceContext" then none
      else
        let buf := yamlM f.iface
        if buf = "\x7b\x7d\n" ∨ buf = "\x7b\x7d" ∨ buf = "" then none
        else some (mrkdwn ("*" ++ f.key ++ "*\n```" ++ buf ++ "```"))
  | .arrayK => some (mrkdwn ("*" ++ f.key ++ "*\n```" ++ yamlM f.iface ++ "```"))
  | .reflectedK => some (mrkdwn ("*" ++ f.key ++ "*\n```" ++ yamlM f.iface ++ "```"))
  | .errorK =>
      match f.iface with
      | .errorV e => some (mrkdwn ("*" ++ f.key ++ "*\n" ++ e))
      | _ => none

/-- What one field adds to the body list (nothing when keyed "error"
or dropped by the renderer). -/
def bodyContrib (yamlM : Iface → String) (f : Field) : List TextBlockObject :=
  if f.key = "error" then [] else (renderOne yamlM f).toList

/-- How one field updates the pinned error slot. -/
def errSlot (yamlM : Iface → String) (o : Option TextBlockObject) (f : Field) : Option TextBlockObject :=
  if f.key = "error" then
    match renderOne yamlM f with
    | some tb => some tb
    | none => o
  else o

/-- The empty-serialization test of AddObject. -/
def isEmptySerial (buf : String) : Prop :=
  buf = "\x7b\x7d\n" ∨ buf = "\x7b\x7d" ∨ buf = ""

/-- The three trace-correlation keys emitted only for a sampled
context. -/
def traceKeys : List String :=
  ["logging.googleapis.com/trace_sampled",
   "logging.googleapis.com/trace",
   "logging.googleapis.com/spanId"]

/-! ## Concrete fixtures (used by witnesses and counterexamples) -/

/-- A freshly configured decorator as `Zap` wraps the inner core
(service "svc", version "v1", no error renderer), with the given
webhook destination. -/
def baseSD (url : String) : stackdriver :=
  { projectID := "", svcCtx := ⟨"svc", "v1"⟩, slackURL := url,
    errorPraser := none, enableSlack := false, user := "", fields := [] }

/-- A concrete error-level entry. -/
def ent0 : Entry :=
  { level := .error, time := "2021-09-06T07:10:52Z", loggerName := "svc",
    message := "boom",
    caller := ⟨true, "example/basic.go:64", "example/basic.go:64", 64, "main.main"⟩ }

/-- The same entry at DPanic level. -/
def entDPanic : Entry :=
  { ent0 with level := .dpanic }

/-- A trivial inner core Write. -/
def pw0 : Entry → List Field → Unit :=
  fun _ _ => ()

/-- Fields exercising the renderer: a string-kind field keyed
"serviceContext" and two fields whose labels "a" and "a!" order one
way alphabetically and the other way by full rendered text. -/
def cexFields : List Field :=
  [strField "serviceContext" "x", strField "a" "1", strField "a!" "2"]

/-! ## Lemmas: the parseFields loop is the sum of per-field contributions -/

theorem parseStep_spec (s : stackdriver) (msg : Option String) (st : parseState) (f : Field) :
    (parseStep s msg st f).fs = st.fs ++ fieldContrib s msg f
    ∧ (parseStep s msg st f).labels = st.labels ++ labelContrib f
    ∧ (parseStep s msg st f).user = userStep st.user f
    ∧ (parseStep s msg st f).sendSlack = (slackStep s (st.sendSlack, st.slackURL) f).1
    ∧ (parseStep s msg st f).slackURL = (slackStep s (st.sendSlack, st.slackURL) f).2 := by
  unfold parseStep fieldContrib labelContrib userStep slackStep
  repeat' split
  all_goals simp_all [List.append_assoc]

theorem parseLoop_fs (s : stackdriver) (msg : Option String) :
    ∀ (l : List Field) (st : parseState),
      (l.foldl (parseStep s msg) st).fs = st.fs ++ l.flatMap (fieldContrib s msg) := by
  intro l
  induction l with
  | nil => intro st; simp
  | cons f t ih =>
    intro st
    simp only [List.foldl_cons, List.flatMap_cons, ih, (parseStep_spec s msg st f).1, List.append_assoc]

theorem parseLoop_labels (s : stackdriver) (msg : Option String) :
    ∀ (l : List Field) (st : parseState),
      (l.foldl (parseStep s msg) st).labels = st.labels ++ l.flatMap labelContrib := by
  intro l
  induction l with
  | nil => intro st; simp
  | cons f t ih =>
    intro st
    simp only [List.foldl_cons, List.flatMap_cons, ih, (parseStep_spec s msg st f).2.1,
      List.append_assoc]

theorem parseLoop_user (s : stackdriver) (msg : Option String) :
    ∀ (l : List Field) (st : parseState),
      (l.foldl (parseStep s msg) st).user = l.foldl userStep st.user := by
  intro l
  induction l with
  | nil => intro st; rfl
  | cons f t ih =>
    intro st
    simp only [List.foldl_cons, ih, (parseStep_spec s msg st f).2.2.1]

theorem parseLoop_slack (s : stackdriver) (msg : Option String) :
    ∀ (l : List Field) (st : parseState),
      ((l.foldl (parseStep s msg) st).sendSlack, (l.foldl (parseStep s msg) st).slackURL)
        = l.foldl (slackStep s) (st.sendSlack, st.slackURL) := by
  intro l
  induction l with
  | nil => intro st; rfl
  | cons f t ih =>
    intro st
    simp only [List.foldl_cons, ih, (parseStep_spec s msg st f).2.2.2.1,
      (parseStep_spec s msg st f).2.2.2.2]

theorem parseFields_fs (s : stackdriver) (l : List Field) (msg : Option String) :
    (s.parseFields l msg).fs =
      l.flatMap (fieldContrib s msg) ++
        (if l.flatMap labelContrib = [] then []
         else [objField "logging.googleapis.com/labels" (.labelsV (l.flatMap labelContrib))]) := by
  unfold stackdriver.parseFields
  have h1 := parseLoop_fs s msg l ⟨[], "", .defaultSlack, "", []⟩
  have h2 := parseLoop_labels s msg l ⟨[], "", .defaultSlack, "", []⟩
  simp only at h1 h2
  simp only [h1, h2, List.nil_append]
  split <;> simp_all

theorem parseFields_user (s : stackdriver) (l : List Field) (msg : Option String) :
    (s.parseFields l msg).user = l.foldl userStep "" := by
  unfold stackdriver.parseFields
  have := parseLoop_user s msg l ⟨[], "", .defaultSlack, "", []⟩
  simp_all

theorem parseFields_slack (s : stackdriver) (l : List Field) (msg : Option String) :
    ((s.parseFields l msg).sendSlack, (s.parseFields l msg).slackURL)
      = l.foldl (slackStep s) (.defaultSlack, "") := by
  unfold stackdriver.parseFields
  have := parseLoop_slack s msg l ⟨[], "", .defaultSlack, "", []⟩
  simp_all

theorem fieldContrib_congr (s s2 : stackdriver) (h : s.errorPraser = s2.errorPraser)
    (msg : Option String) (f : Field) : fieldContrib s msg f = fieldContrib s2 msg f := by
  unfold fieldContrib
  rw [h]

theorem parseFields_fs_congr (s s2 : stackdriver) (h : s.errorPraser = s2.errorPraser)
    (l : List Field) (msg : Option String) :
    (s.parseFields l msg).fs = (s2.parseFields l msg).fs := by
  rw [parseFields_fs, parseFields_fs]
  have hfun : fieldContrib s msg = fieldContrib s2 msg :=
    funext (fieldContrib_congr s s2 h msg)
  rw [hfun]

/-! ## Lemmas about With and the slack directive state -/

theorem With_projections (s : stackdriver) (l : List Field) :
    (s.With l).projectID = s.projectID ∧ (s.With l).svcCtx = s.svcCtx
    ∧ (s.With l).errorPraser = s.errorPraser
    ∧ (s.With l).fields = s.fields ++ (s.parseFields l none).fs := by
  unfold stackdriver.With
  dsimp only
  split_ifs <;> simp

theorem slackStep_of_ne (s : stackdriver) (p : slackBehavior × String) (f : Field)
    (h : f.key ≠ logKeySlackNotification) : slackStep s p f = p := by
  unfold slackStep
  repeat' split
  all_goals simp_all

theorem foldl_slackStep_of_ne (s : stackdriver) :
    ∀ (l : List Field), (∀ f ∈ l, f.key ≠ logKeySlackNotification) →
      ∀ p, l.foldl (slackStep s) p = p := by
  intro l
  induction l with
  | nil => intro _ p; rfl
  | cons f t ih =>
    intro h p
    have hf : f.key ≠ logKeySlackNotification := h f (by simp)
    simp only [List.foldl_cons, slackStep_of_ne s p f hf]
    exact ih (fun g hg => h g (by simp [hg])) p

theorem slackStep_fst_congr (s s2 : stackdriver) (f : Field) (p p2 : slackBehavior × String)
    (h : p.1 = p2.1) : (slackStep s p f).1 = (slackStep s2 p2 f).1 := by
  unfold slackStep
  repeat' split
  all_goals simp_all

theorem foldl_slackStep_fst_congr (s s2 : stackdriver) :
    ∀ (l : List Field) (p p2 : slackBehavior × String), p.1 = p2.1 →
      (l.foldl (slackStep s) p).1 = (l.foldl (slackStep s2) p2).1 := by
  intro l
  induction l with
  | nil => intro p p2 h; exact h
  | cons f t ih =>
    intro p p2 h
    exact ih _ _ (slackStep_fst_congr s s2 f p p2 h)

/-! ## Lemmas about the keys a field can contribute -/

theorem fieldContrib_keys_no_trace (s : stackdriver) (msg : Option String) (f : Field)
    (hs : ∀ c, f.iface = .ctxInfoV c → c.isSampled = false)
    (hk : ¬ f.key ∈ traceKeys) :
    ∀ g ∈ fieldContrib s msg f, ¬ g.key ∈ traceKeys := by
  have t1 : ¬ "grpc_method" ∈ traceKeys := by decide
  have t2 : ¬ "request_id" ∈ traceKeys := by decide
  intro g hg
  unfold fieldContrib at hg
  repeat' split at hg
  all_goals try simp_all [strField, boolField, objField]
  all_goals repeat' rcases hg with rfl | hg
  all_goals simp_all

theorem fieldContrib_keys_clean (s : stackdriver) (msg : Option String) (f : Field)
    (h : isLabelKey f.key = false → f.key ≠ "logging.googleapis.com/labels") :
    ∀ g ∈ fieldContrib s msg f,
      isLabelKey g.key = false ∧ g.key ≠ "logging.googleapis.com/labels" := by
  have d1 : isLabelKey "logging.googleapis.com/trace_sampled" = false := by decide
  have d2 : isLabelKey "logging.googleapis.com/trace" = false := by decide
  have d3 : isLabelKey "logging.googleapis.com/spanId" = false := by decide
  have d4 : isLabelKey "grpc_method" = false := by decide
  have d5 : isLabelKey "request_id" = false := by decide
  have e1 : "logging.googleapis.com/trace_sampled" ≠ "logging.googleapis.com/labels" := by decide
  have e2 : "logging.googleapis.com/trace" ≠ "logging.googleapis.com/labels" := by decide
  have e3 : "logging.googleapis.com/spanId" ≠ "logging.googleapis.com/labels" := by decide
  have e4 : "grpc_method" ≠ "logging.googleapis.com/labels" := by decide
  have e5 : "request_id" ≠ "logging.googleapis.com/labels" := by decide
  intro g hg
  unfold fieldContrib at hg
  repeat' split at hg
  all_goals try simp_all [strField, boolField, objField]
  all_goals repeat' rcases hg with rfl | hg
  all_goals simp_all

/-! ## Lemmas: the slack renderer as per-field contributions -/

theorem fieldAddTo_spec (yamlM : Iface → String) (enc : slackEncoder) (f : Field) :
    (fieldAddTo yamlM enc f).Fields = enc.Fields ++ bodyContrib yamlM f
    ∧ (fieldAddTo yamlM enc f).ErrField = errSlot yamlM enc.ErrField f := by
  unfold fieldAddTo bodyContrib errSlot renderOne slackEncoder.addField
  repeat' split
  all_goals try simp_all
  all_goals repeat' split
  all_goals simp_all

theorem renderFold_spec (yamlM : Iface → String) :
    ∀ (l : List Field) (enc : slackEncoder),
      (l.foldl (fieldAddTo yamlM) enc).Fields = enc.Fields ++ l.flatMap (bodyContrib yamlM)
      ∧ (l.foldl (fieldAddTo yamlM) enc).ErrField = l.foldl (errSlot yamlM) enc.ErrField := by
  intro l
  induction l with
  | nil => intro enc; simp
  | cons f t ih =>
    intro enc
    refine ⟨?_, ?_⟩
    · simp only [List.foldl_cons, List.flatMap_cons, (ih _).1, (fieldAddTo_spec yamlM enc f).1,
        List.append_assoc]
    · simp only [List.foldl_cons, (ih _).2, (fieldAddTo_spec yamlM enc f).2]

theorem charListLe_total : ∀ (as bs : List Char),
    charListLe as bs = true ∨ charListLe bs as = true := by
  intro as
  induction as with
  | nil => intro bs; left; rfl
  | cons x xs ih =>
    intro bs
    cases bs with
    | nil => right; rfl
    | cons y ys =>
      by_cases hxy : x.toNat < y.toNat
      · left; simp [charListLe, hxy]
      · by_cases hyx : y.toNat < x.toNat
        · right; simp [charListLe, hyx]
        · rcases ih ys with h | h
          · left; simp [charListLe, hxy, hyx, h]
          · right; simp [charListLe, hxy, hyx, h]

theorem charListLe_trans : ∀ (as bs cs : List Char),
    charListLe as bs = true → charListLe bs cs = true → charListLe as cs = true := by
  intro as
  induction as with
  | nil => intro bs cs _ _; rfl
  | cons x xs ih =>
    intro bs cs hab hbc
    cases bs with
    | nil => simp [charListLe] at hab
    | cons y ys =>
      cases cs with
      | nil => simp [charListLe] at hbc
      | cons z zs =>
        simp only [charListLe] at hab hbc ⊢
        by_cases hxy : x.toNat < y.toNat <;> by_cases hyx : y.toNat < x.toNat <;>
          by_cases hyz : y.toNat < z.toNat <;> by_cases hzy : z.toNat < y.toNat <;>
          by_cases hxz : x.toNat < z.toNat <;> by_cases hzx : z.toNat < x.toNat <;>
          simp_all
        all_goals first
          | exact ih ys zs hab hbc
          | exact Or.inr (ih ys zs hab hbc)
          | omega

theorem mem_insertSorted (a x : TextBlockObject) :
    ∀ (l : List TextBlockObject), x ∈ insertSorted a l ↔ x = a ∨ x ∈ l := by
  intro l
  induction l with
  | nil => simp [insertSorted]
  | cons b t ih =>
    unfold insertSorted
    split
    · simp [or_comm, or_assoc, or_left_comm]
    · simp only [List.mem_cons, ih]
      tauto

theorem insertSorted_sorted (a : TextBlockObject) :
    ∀ (l : List TextBlockObject), l.Pairwise textLe → (insertSorted a l).Pairwise textLe := by
  intro l
  induction l with
  | nil => intro _; simp [insertSorted, List.Pairwise]
  | cons b t ih =>
    intro h
    rcases List.pairwise_cons.mp h with ⟨hb, ht⟩
    unfold insertSorted
    split
    · rename_i hab
      refine List.pairwise_cons.mpr ⟨?_, h⟩
      intro c hc
      rcases List.mem_cons.mp hc with rfl | hc2
      · exact hab
      · exact charListLe_trans _ _ _ hab (hb c hc2)
    · rename_i hab
      have hba : charListLe b.text.data a.text.data = true := by
        rcases charListLe_total a.text.data b.text.data with h1 | h1
        · exact absurd h1 hab
        · exact h1
      refine List.pairwise_cons.mpr ⟨?_, ih ht⟩
      intro c hc
      rcases (mem_insertSorted a c t).mp hc with rfl | hc2
      · exact hba
      · exact hb c hc2

theorem sortByText_sorted : ∀ (l : List TextBlockObject), (sortByText l).Pairwise textLe := by
  intro l
  induction l with
  | nil => simp [sortByText]
  | cons a t ih => exact insertSorted_sorted a (sortByText t) ih

theorem sendSlackNotification_payload (s : stackdriver) (yamlM : Iface → String)
    (url : String) (ent : Entry) (fields : List Field) (pl : SlackPayload)
    (h : (s.sendSlackNotification yamlM url ent fields).payload = some pl) :
    pl.body = sortByText (fields.flatMap (bodyContrib yamlM))
    ∧ pl.errField = fields.foldl (errSlot yamlM) none := by
  unfold stackdriver.sendSlackNotification at h
  by_cases hu : url = ""
  · simp [hu] at h
  · simp only [hu, if_false] at h
    cases hc : levelColorMap ent.level with
    | none => rw [hc] at h; simp at h
    | some color =>
      rw [hc] at h
      simp only [Option.some.injEq] at h
      subst h
      refine ⟨?_, ?_⟩
      · simp [slackEncoder.sortFields, (renderFold_spec yamlM fields ⟨[], none⟩).1]
      · simp [slackEncoder.sortFields, (renderFold_spec yamlM fields ⟨[], none⟩).2]

theorem parseStep_malformed_ctx (s : stackdriver) (msg : Option String) (st : parseState)
    (f : Field) (hk : f.key = logKeyContextInfo) (hi : ∀ c, f.iface ≠ .ctxInfoV c) :
    parseStep s msg st f = st := by
  have h1 : isLabelKey logKeyContextInfo = false := by decide
  have h2 : logKeyContextInfo ≠ "user" := by decide
  have h3 : logKeyContextInfo ≠ "stack_trace" := by decide
  unfold parseStep
  repeat' split
  all_goals simp_all

/-! ## Claim theorems -/

/-- C5: the notification retry decision function: for every attempt
number n below the maximum of 10, a rate-limited failure with
retry-after d retries after exactly d; a failure whose retryable
predicate returns false stops immediately; any other failure retries
after the backoff delay for n; and once 10 attempts are reached no
retry is scheduled. -/
theorem slackRetrier_Retry_spec (bo : Nat → Int) (n : Nat) (d : Int) :
    (n < 10 → (defaultRetrier bo).Retry n (.rateLimited d) = (d, true))
    ∧ (n < 10 → (defaultRetrier bo).Retry n (.retryable false) = (0, false))
    ∧ (n < 10 → (defaultRetrier bo).Retry n (.retryable true) = (bo n, true))
    ∧ (n < 10 → (defaultRetrier bo).Retry n .other = (bo n, true))
    ∧ (10 ≤ n → ∀ e, ((defaultRetrier bo).Retry n e).2 = false) := by
  unfold defaultRetrier slackRetrier.Retry
  refine ⟨fun h => ?_, fun h => ?_, fun h => ?_, fun h => ?_, fun h e => ?_⟩
  · simp [Nat.not_le.mpr h]
  · simp [Nat.not_le.mpr h]
  · simp [Nat.not_le.mpr h]
  · simp [Nat.not_le.mpr h]
  · cases e <;> simp [h]

/-- Witness for C5 at the spec scenario: attempt 1 of 10, a
rate-limited failure carrying retryAfter of two seconds
(2000000000 ns) is rescheduled after exactly that duration. -/
theorem slackRetrier_Retry_spec_witness :
    1 < 10
    ∧ (defaultRetrier (fun _ => 7)).Retry 1 (.rateLimited 2000000000) = (2000000000, true) :=
  ⟨by decide, (slackRetrier_Retry_spec (fun _ => 7) 1 2000000000).1 (by decide)⟩

/-- C7: Write prefixes the logger name and ": " onto the message when
the logger name is non-empty and not the sentinel "unknown", and
leaves the message unchanged otherwise; the resulting entry is the
one used for the persisted write and the notification. -/
theorem Write_message_prefixing {ρ : Type} (pw : Entry → List Field → ρ) (s : stackdriver)
    (ent : Entry) (fields : List Field) :
    (ent.loggerName ≠ "" ∧ ent.loggerName ≠ "unknown" →
        (s.Write pw ent fields).entry.message = ent.loggerName ++ ": " ++ ent.message)
    ∧ (ent.loggerName = "" ∨ ent.loggerName = "unknown" →
        (s.Write pw ent fields).entry.message = ent.message) := by
  unfold stackdriver.Write prefixEntry
  constructor
  · intro h
    simp [h]
  · intro h
    have hne : ¬ (ent.loggerName ≠ "" ∧ ent.loggerName ≠ "unknown") := by tauto
    simp [hne]

/-- Witness for C7: a concrete entry with logger name "svc". -/
theorem Write_message_prefixing_witness :
    (ent0.loggerName ≠ "" ∧ ent0.loggerName ≠ "unknown")
    ∧ ((baseSD "").Write pw0 ent0 []).entry.message
        = ent0.loggerName ++ ": " ++ ent0.message :=
  ⟨⟨by decide, by decide⟩,
   (Write_message_prefixing pw0 (baseSD "") ent0 []).1 ⟨by decide, by decide⟩⟩

/-- C10: for a DPanic entry the notification task performs no
delivery attempt: DPanic maps to severity CRITICAL in the persisted
output but is absent from the alert-color table, so
sendSlackNotification returns before building any payload, its only
effect being the released task slot. -/
theorem dpanic_no_delivery (s : stackdriver) (yamlM : Iface → String) (url : String)
    (ent : Entry) (fields : List Field) (h : ent.level = .dpanic) :
    s.sendSlackNotification yamlM url ent fields = ⟨true, none⟩
    ∧ levelColorMap .dpanic = none
    ∧ encodeLevel .dpanic = "CRITICAL" := by
  refine ⟨?_, rfl, rfl⟩
  unfold stackdriver.sendSlackNotification
  by_cases hu : url = ""
  · simp [hu]
  · simp [hu, h, levelColorMap]

/-- Witness for C10: a concrete DPanic entry with a non-empty
destination. -/
theorem dpanic_no_delivery_witness :
    entDPanic.level = .dpanic
    ∧ (baseSD "https://hook").sendSlackNotification (fun _ => "") "https://hook" entDPanic []
        = ⟨true, none⟩ :=
  ⟨rfl,
   (dpanic_no_delivery (baseSD "https://hook") (fun _ => "") "https://hook" entDPanic [] rfl).1⟩

/-- C2 (code-bug evaluation): With's child struct literal omits
enableSlack, so the parent's notification directive is NOT inherited.
After parent.With([slack=true]) the child is Enabled, but a
grandchild derived with a slack-free field list is reset to the
zero value false (the claim and spec say it should still be Enabled),
and its Write dispatches no notification; the destination, by
contrast, is inherited as specified. -/
theorem With_drops_enableSlack :
    ((baseSD "https://hook").With [boolField logKeySlackNotification true]).enableSlack = true
    ∧ (((baseSD "https://hook").With [boolField logKeySlackNotification true]).With
        [strField "k" "v"]).enableSlack = false
    ∧ (((baseSD "https://hook").With [boolField logKeySlackNotification true]).With
        [strField "k" "v"]).slackURL = "https://hook"
    ∧ ((((baseSD "https://hook").With [boolField logKeySlackNotification true]).With
        [strField "k" "v"]).Write pw0 ent0 []).notified = none := by
  refine ⟨by decide, by decide, by decide, by decide⟩

/-- C6: the inner core's Write is invoked with the (re-messaged)
entry and the final field set and the decorator returns exactly its
result; the notification configuration (directive and destination)
has no effect on the entry, the fields or the returned result. -/
theorem Write_result_transparent {ρ : Type} (pw : Entry → List Field → ρ) (s : stackdriver)
    (ent : Entry) (fields : List Field) (b : Bool) (u : String) :
    (s.Write pw ent fields).result
        = pw (s.Write pw ent fields).entry (s.Write pw ent fields).fields
    ∧ (({ s with enableSlack := b, slackURL := u } : stackdriver).Write pw ent fields).fields
        = (s.Write pw ent fields).fields
    ∧ (({ s with enableSlack := b, slackURL := u } : stackdriver).Write pw ent fields).result
        = (s.Write pw ent fields).result
    ∧ (({ s with enableSlack := b, slackURL := u } : stackdriver).Write pw ent fields).entry
        = (s.Write pw ent fields).entry := by
  have hep : ({ s with enableSlack := b, slackURL := u } : stackdriver).errorPraser
      = s.errorPraser := rfl
  have hfs := parseFields_fs_congr { s with enableSlack := b, slackURL := u } s hep fields
    (some (prefixEntry ent).message)
  have huser : (({ s with enableSlack := b, slackURL := u } : stackdriver).parseFields fields
        (some (prefixEntry ent).message)).user
      = (s.parseFields fields (some (prefixEntry ent).message)).user := by
    rw [parseFields_user, parseFields_user]
  unfold stackdriver.Write
  dsimp only
  rw [hfs, huser]
  exact ⟨rfl, rfl, rfl, rfl⟩

/-- C9: a SlackNotification field resolves immediately: boolean true
yields directive Enabled with the decorator's configured default
destination, boolean false yields Disabled, a string value yields
Enabled with that string as destination override, and in all cases a
slack-keyed field contributes nothing to the forwarded fields. -/
theorem parseFields_slackNotification_spec (s : stackdriver) (msg : Option String)
    (pre post : List Field) (u : String)
    (hpost : ∀ f ∈ post, f.key ≠ logKeySlackNotification) :
    ((s.parseFields (pre ++ boolField logKeySlackNotification true :: post) msg).sendSlack
          = .enableSlack
      ∧ (s.parseFields (pre ++ boolField logKeySlackNotification true :: post) msg).slackURL
          = s.slackURL)
    ∧ (s.parseFields (pre ++ boolField logKeySlackNotification false :: post) msg).sendSlack
        = .disableSlack
    ∧ ((s.parseFields (pre ++ strField logKeySlackNotification u :: post) msg).sendSlack
          = .enableSlack
      ∧ (s.parseFields (pre ++ strField logKeySlackNotification u :: post) msg).slackURL = u)
    ∧ (∀ f, f.key = logKeySlackNotification →
        (s.parseFields (pre ++ f :: post) msg).fs = (s.parseFields (pre ++ post) msg).fs) := by
  have dLab : isLabelKey logKeySlackNotification = false := by decide
  have dUser : logKeySlackNotification ≠ "user" := by decide
  have dStack : logKeySlackNotification ≠ "stack_trace" := by decide
  have dCtx : logKeySlackNotification ≠ logKeyContextInfo := by decide
  have hstep1 : ∀ p, slackStep s p (boolField logKeySlackNotification true)
      = (.enableSlack, s.slackURL) := by
    intro p
    unfold slackStep boolField
    simp [dLab, dUser, dStack, dCtx]
  have hstep2 : ∀ p, slackStep s p (boolField logKeySlackNotification false)
      = (.disableSlack, p.2) := by
    intro p
    unfold slackStep boolField
    simp [dLab, dUser, dStack, dCtx]
  have hstep3 : ∀ p, slackStep s p (strField logKeySlackNotification u)
      = (.enableSlack, u) := by
    intro p
    unfold slackStep strField
    simp [dLab, dUser, dStack, dCtx]
  have key1 := parseFields_slack s (pre ++ boolField logKeySlackNotification true :: post) msg
  rw [List.foldl_append, List.foldl_cons, hstep1, foldl_slackStep_of_ne s post hpost] at key1
  have key2 := parseFields_slack s (pre ++ boolField logKeySlackNotification false :: post) msg
  rw [List.foldl_append, List.foldl_cons, hstep2, foldl_slackStep_of_ne s post hpost] at key2
  have key3 := parseFields_slack s (pre ++ strField logKeySlackNotification u :: post) msg
  rw [List.foldl_append, List.foldl_cons, hstep3, foldl_slackStep_of_ne s post hpost] at key3
  rw [Prod.ext_iff] at key1 key2 key3
  refine ⟨⟨key1.1, key1.2⟩, key2.1, ⟨key3.1, key3.2⟩, ?_⟩
  intro f hf
  have hcf : fieldContrib s msg f = [] := by
    unfold fieldContrib
    rw [hf]
    simp [dLab, dUser, dStack, dCtx]
  have hlc : labelContrib f = [] := by
    unfold labelContrib
    rw [hf]
    simp [dLab]
  rw [parseFields_fs, parseFields_fs]
  simp [List.flatMap_append, List.flatMap_cons, hcf, hlc]

/-- Witness for C9: a single boolean-true slack marker on a decorator
configured with destination "https://hook". -/
theorem parseFields_slackNotification_spec_witness :
    (∀ f ∈ ([] : List Field), f.key ≠ logKeySlackNotification)
    ∧ ((baseSD "https://hook").parseFields
        ([] ++ boolField logKeySlackNotification true :: []) none).sendSlack = .enableSlack :=
  ⟨by decide,
   ((parseFields_slackNotification_spec (baseSD "https://hook") none [] [] "u"
      (by decide)).1).1⟩

/-- C3: a well-formed ContextInfo field with isSampled=true
contributes the trace_sampled/trace/spanId triple; when every context
field is unsampled (and no raw field reuses those keys) none of the
three keys appears in the output, regardless of the other context
sub-fields; and a context-keyed field whose stored value is not a
well-formed contextInfo is dropped silently, leaving the entire
classifier result unchanged. -/
theorem parseFields_contextInfo_spec (s : stackdriver) (msg : Option String) :
    (∀ (pre post : List Field) (f : Field) (c : contextInfo),
        f.key = logKeyContextInfo → f.iface = .ctxInfoV c → c.isSampled = true →
          boolField "logging.googleapis.com/trace_sampled" true
              ∈ (s.parseFields (pre ++ f :: post) msg).fs
          ∧ strField "logging.googleapis.com/trace" c.traceID
              ∈ (s.parseFields (pre ++ f :: post) msg).fs
          ∧ strField "logging.googleapis.com/spanId" c.spanID
              ∈ (s.parseFields (pre ++ f :: post) msg).fs)
    ∧ (∀ (l : List Field),
        (∀ f ∈ l, ∀ c, f.iface = .ctxInfoV c → c.isSampled = false) →
        (∀ f ∈ l, ¬ f.key ∈ traceKeys) →
        ∀ g ∈ (s.parseFields l msg).fs, ¬ g.key ∈ traceKeys)
    ∧ (∀ (pre post : List Field) (f : Field),
        f.key = logKeyContextInfo → (∀ c, f.iface ≠ .ctxInfoV c) →
          s.parseFields (pre ++ f :: post) msg = s.parseFields (pre ++ post) msg) := by
  refine ⟨?_, ?_, ?_⟩
  · intro pre post f c hk hi hs
    have hc : fieldContrib s msg f
        = [boolField "logging.googleapis.com/trace_sampled" true,
           strField "logging.googleapis.com/trace" c.traceID,
           strField "logging.googleapis.com/spanId" c.spanID]
          ++ (if c.grpcMethod ≠ "" then [strField "grpc_method" c.grpcMethod] else [])
          ++ (if c.requestID ≠ "" then [strField "request_id" c.requestID] else []) := by
      unfold fieldContrib
      rw [hk, hi]
      simp [show isLabelKey logKeyContextInfo = false from by decide,
            show logKeyContextInfo ≠ "user" from by decide,
            show logKeyContextInfo ≠ "stack_trace" from by decide, hs]
    rw [parseFields_fs]
    refine ⟨?_, ?_, ?_⟩ <;>
      (apply List.mem_append_left
       rw [List.flatMap_append, List.flatMap_cons]
       apply List.mem_append_right
       apply List.mem_append_left
       rw [hc]
       simp)
  · intro l h1 h2 g hg
    rw [parseFields_fs] at hg
    rcases List.mem_append.mp hg with hg | hg
    · rcases List.mem_flatMap.mp hg with ⟨f, hf, hgf⟩
      exact fieldContrib_keys_no_trace s msg f (h1 f hf) (h2 f hf) g hgf
    · by_cases hl : l.flatMap labelContrib = []
      · rw [if_pos hl] at hg
        simp at hg
      · rw [if_neg hl] at hg
        simp only [List.mem_singleton] at hg
        subst hg
        simp [objField, traceKeys]
  · intro pre post f hk hi
    unfold stackdriver.parseFields
    dsimp only
    rw [List.foldl_append, List.foldl_cons,
      parseStep_malformed_ctx s msg (List.foldl (parseStep s msg) ⟨[], "", .defaultSlack, "", []⟩ pre) f hk hi,
      ← List.foldl_append]

/-- Witness for C3: a sampled context field alone in the batch makes
the trace_sampled marker appear in the forwarded fields. -/
theorem parseFields_contextInfo_spec_witness :
    ((ctxField ⟨true, "tid", "sid", "", ""⟩).key = logKeyContextInfo
      ∧ (ctxField ⟨true, "tid", "sid", "", ""⟩).iface = .ctxInfoV ⟨true, "tid", "sid", "", ""⟩
      ∧ (⟨true, "tid", "sid", "", ""⟩ : contextInfo).isSampled = true)
    ∧ boolField "logging.googleapis.com/trace_sampled" true
        ∈ ((baseSD "").parseFields ([] ++ ctxField ⟨true, "tid", "sid", "", ""⟩ :: []) none).fs :=
  ⟨⟨rfl, rfl, rfl⟩,
   ((parseFields_contextInfo_spec (baseSD "") none).1 [] [] (ctxField ⟨true, "tid", "sid", "", ""⟩)
      ⟨true, "tid", "sid", "", ""⟩ rfl rfl rfl).1⟩

/-- C4: label-prefixed fields are collected (prefix stripped, string
value kept) into a single composite labels object appended at the end
of the forwarded fields; no label-prefixed field and no other labels
object appears among the other forwarded fields; and when there are
no label fields, no labels object is emitted. -/
theorem parseFields_labels_spec (s : stackdriver) (msg : Option String) (l : List Field)
    (h : ∀ f ∈ l, isLabelKey f.key = false → f.key ≠ "logging.googleapis.com/labels") :
    (l.flatMap labelContrib = [] →
        (s.parseFields l msg).fs = l.flatMap (fieldContrib s msg))
    ∧ (l.flatMap labelContrib ≠ [] →
        (s.parseFields l msg).fs
          = l.flatMap (fieldContrib s msg)
            ++ [objField "logging.googleapis.com/labels" (.labelsV (l.flatMap labelContrib))])
    ∧ (∀ g ∈ l.flatMap (fieldContrib s msg),
        isLabelKey g.key = false ∧ g.key ≠ "logging.googleapis.com/labels")
    ∧ (∀ f ∈ l, ∀ pr ∈ labelContrib f, pr.1 = stripLabelKey f.key ∧ pr.2 = f.str) := by
  refine ⟨?_, ?_, ?_, ?_⟩
  · intro hl
    rw [parseFields_fs, if_pos hl, List.append_nil]
  · intro hl
    rw [parseFields_fs, if_neg hl]
  · intro g hg
    rcases List.mem_flatMap.mp hg with ⟨f, hf, hgf⟩
    exact fieldContrib_keys_clean s msg f (h f hf) g hgf
  · intro f hf pr hpr
    unfold labelContrib at hpr
    split at hpr
    · simp only [List.mem_singleton] at hpr
      subst hpr
      exact ⟨rfl, rfl⟩
    · simp at hpr

/-- Witness for C4: one label field plus one plain field produce the
composite labels object at the end of the forwarded fields. -/
theorem parseFields_labels_spec_witness :
    ([Label "foo" "a", strField "k" "v"].flatMap labelContrib ≠ [])
    ∧ ((baseSD "").parseFields [Label "foo" "a", strField "k" "v"] none).fs
        = [Label "foo" "a", strField "k" "v"].flatMap (fieldContrib (baseSD "") none)
          ++ [objField "logging.googleapis.com/labels"
                (.labelsV ([Label "foo" "a", strField "k" "v"].flatMap labelContrib))] :=
  ⟨by decide,
   (parseFields_labels_spec (baseSD "") none [Label "foo" "a", strField "k" "v"]
      (by decide)).2.1 (by decide)⟩

/-- C1 (amended): deriving scoped decorators and writing,
a.With(x).With(y).Write(ent, f), forwards to the inner core the
classifier's fields for the per-call batch f FIRST, then the
inherited fields of x, then those of y, then the three fixed metadata
objects (source location, service context, error-reporting context);
the inherited fields are ordered x before y, but the per-call fields
precede them rather than following them. -/
theorem With_With_Write_field_order {ρ : Type} (pw : Entry → List Field → ρ) (a : stackdriver)
    (x y f : List Field) (ent : Entry) (ha : a.fields = []) :
    ∃ u, (((a.With x).With y).Write pw ent f).fields
      = (a.parseFields f (some (prefixEntry ent).message)).fs
        ++ (a.parseFields x none).fs ++ (a.parseFields y none).fs
        ++ [objField "logging.googleapis.com/sourceLocation"
              (.srcLocV (sourceLocationFromEntry (prefixEntry ent))),
            objField "serviceContext" (.svcCtxV a.svcCtx),
            objField "context" (.errCtxV ⟨reportLocationFromEntry (prefixEntry ent), u⟩)] := by
  obtain ⟨hp1, hsvc1, hep1, hfl1⟩ := With_projections a x
  obtain ⟨hp2, hsvc2, hep2, hfl2⟩ := With_projections (a.With x) y
  have hepa : ((a.With x).With y).errorPraser = a.errorPraser := hep2.trans hep1
  have hsvca : ((a.With x).With y).svcCtx = a.svcCtx := hsvc2.trans hsvc1
  have hfields : ((a.With x).With y).fields
      = (a.parseFields x none).fs ++ (a.parseFields y none).fs := by
    rw [hfl2, hfl1, ha, List.nil_append]
    congr 1
    exact parseFields_fs_congr (a.With x) a hep1 y none
  refine ⟨(if (((a.With x).With y).parseFields f (some (prefixEntry ent).message)).user = ""
           then ((a.With x).With y).user
           else (((a.With x).With y).parseFields f (some (prefixEntry ent).message)).user), ?_⟩
  unfold stackdriver.Write
  dsimp only
  rw [parseFields_fs_congr ((a.With x).With y) a hepa f (some (prefixEntry ent).message),
    hfields, hsvca]
  simp [List.append_assoc]

/-- Witness for C1's amended ordering at concrete scopes x, y and a
concrete call batch f. -/
theorem With_With_Write_field_order_witness :
    (baseSD "").fields = []
    ∧ ∃ u, ((((baseSD "").With [strField "x1" "vx"]).With [strField "y1" "vy"]).Write pw0 ent0
          [strField "f1" "vf"]).fields
        = ((baseSD "").parseFields [strField "f1" "vf"] (some (prefixEntry ent0).message)).fs
          ++ ((baseSD "").parseFields [strField "x1" "vx"] none).fs
          ++ ((baseSD "").parseFields [strField "y1" "vy"] none).fs
          ++ [objField "logging.googleapis.com/sourceLocation"
                (.srcLocV (sourceLocationFromEntry (prefixEntry ent0))),
              objField "serviceContext" (.svcCtxV (baseSD "").svcCtx),
              objField "context" (.errCtxV ⟨reportLocationFromEntry (prefixEntry ent0), u⟩)] :=
  ⟨rfl,
   With_With_Write_field_order pw0 (baseSD "") [strField "x1" "vx"] [strField "y1" "vy"]
     [strField "f1" "vf"] ent0 rfl⟩

/-- Counterexample to C1 as stated: with scopes x = [x1], y = [y1]
and call batch f = [f1], the non-reserved fields reach the inner core
in order f1, x1, y1 — not the claimed x1, y1, f1. -/
theorem With_With_Write_order_cex :
    ((((baseSD "").With [strField "x1" "vx"]).With [strField "y1" "vy"]).Write pw0 ent0
        [strField "f1" "vf"]).fields.map Field.key
      = ["f1", "x1", "y1", "logging.googleapis.com/sourceLocation", "serviceContext", "context"]
    ∧ (["f1", "x1", "y1"] : List String) ≠ ["x1", "y1", "f1"] := by
  refine ⟨by decide, by decide⟩

/-- C8 (amended): in every rendered notification payload, the body is
the text-sorted list of the per-field renderings excluding
error-keyed fields (sorting is by the FULL rendered text, which
begins with the label but can deviate from pure label-alphabetical
order, and the error-keyed field is pinned to the header slot
whenever it renders at all); an Object-kind field keyed
"serviceContext" never renders; and an Object-kind field whose
serialized form is empty never renders. -/
theorem slackPayload_render_spec (s : stackdriver) (yamlM : Iface → String) (url : String)
    (ent : Entry) (fields : List Field) (pl : SlackPayload)
    (h : (s.sendSlackNotification yamlM url ent fields).payload = some pl) :
    pl.body = sortByText (fields.flatMap (bodyContrib yamlM))
    ∧ pl.body.Pairwise textLe
    ∧ pl.errField = fields.foldl (errSlot yamlM) none
    ∧ (∀ f, f.key = "error" → bodyContrib yamlM f = [])
    ∧ (∀ f, f.kind = .objectK → f.key = "serviceContext" → renderOne yamlM f = none)
    ∧ (∀ f, f.kind = .objectK → isEmptySerial (yamlM f.iface) → renderOne yamlM f = none) := by
  obtain ⟨h1, h2⟩ := sendSlackNotification_payload s yamlM url ent fields pl h
  refine ⟨h1, ?_, h2, ?_, ?_, ?_⟩
  · rw [h1]
    exact sortByText_sorted _
  · intro f hf
    unfold bodyContrib
    rw [hf]
    simp
  · intro f hk hsc
    simp only [renderOne, hk]
    rw [if_pos hsc]
  · intro f hk he
    simp only [renderOne, hk]
    split
    · rfl
    · unfold isEmptySerial at he
      rw [if_pos he]

/-- Witness for C8 at a concrete payload (error-level entry,
non-empty destination, the cexFields batch). -/
theorem slackPayload_render_spec_witness :
    ((baseSD "u").sendSlackNotification (fun _ => "") "https://hook" ent0 cexFields).payload
        = some ⟨"#D50000", "*boom*\nexample/basic.go:64",
                [mrkdwn "*Service*\nsvc", mrkdwn "*Version*\nv1",
                 mrkdwn "*Time*\n2021-09-06T07:10:52Z"], none,
                [mrkdwn "*a!*\n2", mrkdwn "*a*\n1", mrkdwn "*serviceContext*\nx"]⟩
    ∧ ([mrkdwn "*a!*\n2", mrkdwn "*a*\n1", mrkdwn "*serviceContext*\nx"] : List TextBlockObject)
        = sortByText (cexFields.flatMap (bodyContrib (fun _ => ""))) :=
  ⟨by decide,
   (slackPayload_render_spec (baseSD "u") (fun _ => "") "https://hook" ent0 cexFields
      ⟨"#D50000", "*boom*\nexample/basic.go:64",
       [mrkdwn "*Service*\nsvc", mrkdwn "*Version*\nv1",
        mrkdwn "*Time*\n2021-09-06T07:10:52Z"], none,
       [mrkdwn "*a!*\n2", mrkdwn "*a*\n1", mrkdwn "*serviceContext*\nx"]⟩
      (by decide)).1⟩

/-- Counterexample to C8 as stated: rendering a string-kind field
keyed "serviceContext" together with fields labelled "a" and "a!"
produces a body that CONTAINS the serviceContext block (the claim
says the serviceContext key is always absent) and orders "a!" before
"a" (label-alphabetical order would put "a" first, since "a" is a
proper prefix of "a!"). -/
theorem slackPayload_render_cex :
    (((baseSD "u").sendSlackNotification (fun _ => "") "https://hook" ent0 cexFields).payload.getD
        ⟨"", "", [], none, []⟩).body.map TextBlockObject.text
      = ["*a!*\n2", "*a*\n1", "*serviceContext*\nx"]
    ∧ ((baseSD "u").sendSlackNotification (fun _ => "") "https://hook" ent0 cexFields).payload.isSome
        = true := by
  refine ⟨by decide, by decide⟩

end Zapx



